import Mathlib

/-!
Verification of `qutebrowser/utils/resources.py`.

A shallow embedding of the resource locator/reader module of qutebrowser
(`qutebrowser/utils/resources.py`) and proofs about its behavior.

The module resolves logical relative resource names against a resource root,
enumerates resources by extension, and reads them as text or bytes, with a
process-wide text cache populated by `preload`.

Modelling choices:

* The resource root is a finite tree of named files and directories (`Node`).
  A file node carries both its decoded text and its raw bytes.
* A resolved location (`pathlib.Path` on the filesystem, or a
  `zipfile.Path`-style `Traversable` inside an archive) is represented by the
  list of path segments relative to the root; the deployment mode
  (`LocKind.fsPath` for a loose checkout or a PyInstaller-frozen executable,
  `LocKind.traversable` for an archive) is carried by the environment `Env`.
  In frozen mode the root is the executable's directory and the location is a
  `pathlib.Path`, so frozen mode behaves like `LocKind.fsPath` here.
* Python exceptions become the error side of `Except Err`.  An underlying
  archive read of a missing key raises `KeyError` (the Python 3.8/3.9
  `zipfile.Path` behavior that `_keyerror_workaround` exists for); a
  filesystem read of a missing file raises `FileNotFoundError`.
* The process-wide dict `_cache` becomes an association list that is passed
  and returned explicitly; dict assignment is modelled by prepending the new
  binding, with lookup taking the most recent one.
* `_glob` is a Python generator; the functions here return the eagerly
  collected list of its elements, together with the error it raises, if any,
  while being drained.  `preload` drains the generator completely, so this is
  observationally equivalent for every consumer in the module.
* `pathlib.Path.glob` matches a single path component with `fnmatch`
  semantics; `fnmatchList` implements the `*` and `?` wildcards and treats
  every other character (including `[`, as for an unmatched bracket) as a
  literal.  Character classes never occur in the extensions this module is
  used with, and theorems about the glob branch restrict the extension
  accordingly.
-/

namespace Resources

/-- The Python exception kinds that the module can raise or observe. -/
inductive Err where
  | assertionError (msg : String)
  | keyError (msg : String)
  | fileNotFoundError (msg : String)
  | isADirectoryError (msg : String)
deriving DecidableEq, Repr

/-- A node of the resource tree: a file (with text and binary contents) or a
directory with named children. -/
inductive Node where
  | file (text : String) (bin : List Nat)
  | dir (children : List (String × Node))

/-- Which abstraction backs the resource root: a real `pathlib.Path`
(loose files, or the frozen executable's directory) or an archive-style
`importlib.resources.abc.Traversable` such as `zipfile.Path`. -/
inductive LocKind where
  | fsPath
  | traversable
deriving DecidableEq, Repr

/-- The ambient environment: the deployment mode and the resource root tree
(`importlib_resources.files(qutebrowser)`, or the executable's directory when
frozen). -/
structure Env where
  kind : LocKind
  root : Node

/-- A resolved location: path segments relative to the resource root. -/
abbrev Loc := List String

/-- Python `str.startswith`. -/
def pyStartsWith (s t : String) : Bool := t.data.isPrefixOf s.data

/-- Python `str.endswith`: compare the last `len t` characters. -/
def pyEndsWith (s t : String) : Bool :=
  s.data.drop (s.data.length - t.data.length) == t.data

/-- `posixpath.isabs`: the path starts with a slash. -/
def posixIsAbs (s : String) : Bool := pyStartsWith s "/"

/-- Split a character list on a separator, Python `str.split` style
(`split '/' "" = [""]`, empty pieces kept). -/
def splitOnChar (sep : Char) : List Char → List (List Char)
  | [] => [[]]
  | c :: cs =>
    match splitOnChar sep cs with
    | [] => if c = sep then [[], []] else [[c]]
    | r :: rs => if c = sep then [] :: r :: rs else (c :: r) :: rs

/-- Python `filename.split(posixpath.sep)`. -/
def pySplitSlash (s : String) : List String :=
  (splitOnChar '/' s.data).map String.mk

/-- The path segments a `pathlib.PurePath` / `Traversable.joinpath` keeps from
a relative name: empty components and `.` components are dropped. -/
def segsOf (s : String) : List String :=
  (pySplitSlash s).filter fun seg => seg != "" && seg != "."

/-- Join segments back into a POSIX-style string, as
`PurePath.as_posix` renders a relative path. -/
def joinSegs : Loc → String
  | [] => ""
  | s :: rest =>
    match rest with
    | [] => s
    | _ :: _ => s ++ "/" ++ joinSegs rest

/-- `posixpath.join` for two components: `b` wins if absolute; no separator
is inserted after an empty or slash-terminated `a`. -/
def posixJoin (a b : String) : String :=
  if pyStartsWith b "/" then b
  else if a = "" then a ++ b
  else if pyEndsWith a "/" then a ++ b
  else a ++ "/" ++ b

/-- Look up a child by name in a directory's children list. -/
def lookupChild : List (String × Node) → String → Option Node
  | [], _ => none
  | (k, n) :: rest, s => if k = s then some n else lookupChild rest s

/-- The child of a node under one segment (files have no children). -/
def Node.child? : Node → String → Option Node
  | .file _ _, _ => none
  | .dir cs, s => lookupChild cs s

/-- Walk a node down a list of segments. -/
def Node.find : Node → List String → Option Node
  | n, [] => some n
  | n, s :: rest =>
    match n.child? s with
    | some c => c.find rest
    | none => none

/-- `_path(filename)`: assert the name is not absolute and has no `..`
segment, then resolve it relative to the resource root (the frozen-executable
branch and the `importlib_resources` branch both join the same relative
segments onto their respective root, which `Env` carries). -/
def _path (filename : String) : Except Err Loc :=
  if posixIsAbs filename then .error (.assertionError filename)
  else if (pySplitSlash filename).contains ".." then .error (.assertionError filename)
  else .ok (segsOf filename)

/-- `read_text` of a resolved location, with the error the backing
abstraction actually raises: `zipfile.Path` raises `KeyError` for a missing
or unreadable key (Python 3.8/3.9, bpo-43063), a real path raises
`FileNotFoundError` / `IsADirectoryError`. -/
def readRawText (env : Env) (loc : Loc) : Except Err String :=
  match env.root.find loc with
  | some (.file t _) => .ok t
  | some (.dir _) =>
    match env.kind with
    | .fsPath => .error (.isADirectoryError (joinSegs loc))
    | .traversable => .error (.keyError (joinSegs loc))
  | none =>
    match env.kind with
    | .fsPath => .error (.fileNotFoundError (joinSegs loc))
    | .traversable => .error (.keyError (joinSegs loc))

/-- `read_bytes` of a resolved location; same error behavior as
`readRawText`. -/
def readRawBytes (env : Env) (loc : Loc) : Except Err (List Nat) :=
  match env.root.find loc with
  | some (.file _ b) => .ok b
  | some (.dir _) =>
    match env.kind with
    | .fsPath => .error (.isADirectoryError (joinSegs loc))
    | .traversable => .error (.keyError (joinSegs loc))
  | none =>
    match env.kind with
    | .fsPath => .error (.fileNotFoundError (joinSegs loc))
    | .traversable => .error (.keyError (joinSegs loc))

/-- `_keyerror_workaround`: re-raise `KeyError` as `FileNotFoundError`,
pass everything else through. -/
def _keyerror_workaround {α : Type} : Except Err α → Except Err α
  | .error (.keyError s) => .error (.fileNotFoundError s)
  | r => r

/-- Single-component `fnmatch.fnmatch` with `*` and `?` wildcards; every
other pattern character is a literal. -/
def fnmatchList : List Char → List Char → Bool
  | [], s => s.isEmpty
  | p :: ps, s =>
    if p = '*' then (List.range (s.length + 1)).any fun k => fnmatchList ps (s.drop k)
    else if p = '?' then
      match s with
      | [] => false
      | _ :: cs => fnmatchList ps cs
    else
      match s with
      | [] => false
      | c :: cs => p == c && fnmatchList ps cs

/-- `fnmatch` on strings. -/
def fnmatchStr (pat name : String) : Bool := fnmatchList pat.data name.data

/-- `_glob(resource_path, subdir, ext)`, eagerly collected.  After the two
assertions on `ext`, the `pathlib.Path` branch globs `*{ext}` inside
`resource_path / subdir` (an empty result when the directory is missing or
not a directory) and yields each hit relative to `resource_path`; the
`Traversable` branch asserts `glob_path.is_dir()` (the assertion message is
the joined path) and yields `posixpath.join(subdir, name)` for each child
whose name ends with `ext`. -/
def _glob (env : Env) (resourceLoc : Loc) (subdir ext : String) :
    Except Err (List String) :=
  if ext.data.contains '*' then .error (.assertionError ext)
  else if !pyStartsWith ext "." then .error (.assertionError ext)
  else
    let globLoc := resourceLoc ++ segsOf subdir
    match env.kind with
    | .fsPath =>
      match env.root.find globLoc with
      | some (.dir cs) =>
        .ok ((cs.filter fun c => fnmatchStr ("*" ++ ext) c.1).map
          fun c => joinSegs (segsOf subdir ++ [c.1]))
      | _ => .ok []
    | .traversable =>
      match env.root.find globLoc with
      | some (.dir cs) =>
        .ok ((cs.filter fun c => pyEndsWith c.1 ext).map
          fun c => posixJoin subdir c.1)
      | _ => .error (.assertionError (joinSegs globLoc))

/-- The module-level `_cache` dict, as an association list (most recent
binding first). -/
abbrev Cache := List (String × String)

/-- Dict lookup: first (most recent) binding wins. -/
def cacheLookup : Cache → String → Option String
  | [], _ => none
  | (k, v) :: rest, n => if k = n then some v else cacheLookup rest n

/-- Dict assignment `_cache[name] = v`. -/
def cacheInsert (c : Cache) (k v : String) : Cache := (k, v) :: c

/-- The cache-miss path of `read_file`: resolve and read as UTF-8 text under
`_keyerror_workaround`. -/
def readDirect (env : Env) (filename : String) : Except Err String :=
  match _path filename with
  | .error e => .error e
  | .ok loc => _keyerror_workaround (readRawText env loc)

/-- `read_file(filename)`: serve from `_cache` when present, otherwise
resolve and read.  Never writes to the cache. -/
def read_file (env : Env) (cache : Cache) (filename : String) :
    Except Err String :=
  match cacheLookup cache filename with
  | some v => .ok v
  | none => readDirect env filename

/-- The body of `read_file_binary`: resolve and read bytes under
`_keyerror_workaround`. -/
def readDirectBinary (env : Env) (filename : String) : Except Err (List Nat) :=
  match _path filename with
  | .error e => .error e
  | .ok loc => _keyerror_workaround (readRawBytes env loc)

/-- `read_file_binary(filename)`.  Its Python body never mentions `_cache`;
the module state is threaded explicitly here so that frame properties can be
stated, and it comes back unchanged because no statement of the body touches
it. -/
def read_file_binary (env : Env) (cache : Cache) (filename : String) :
    Except Err (List Nat) × Cache :=
  (readDirectBinary env filename, cache)

/-- The fixed `(subdir, ext)` list preload iterates over. -/
def preloadPairs : List (String × String) :=
  [("html", ".html"), ("javascript", ".js"), ("javascript/quirks", ".js")]

/-- The inner loop of `preload`: `_cache[name] = read_file(name)` for each
globbed name (the right-hand side is evaluated against the cache state before
the assignment). -/
def cacheNames (env : Env) : Cache → List String → Except Err Cache
  | cache, [] => .ok cache
  | cache, name :: rest =>
    match read_file env cache name with
    | .error e => .error e
    | .ok v => cacheNames env (cacheInsert cache name v) rest

/-- The outer loop of `preload` over `preloadPairs`. -/
def preloadGo (env : Env) (resourceLoc : Loc) :
    Cache → List (String × String) → Except Err Cache
  | cache, [] => .ok cache
  | cache, (subdir, ext) :: rest =>
    match _glob env resourceLoc subdir ext with
    | .error e => .error e
    | .ok names =>
      match cacheNames env cache names with
      | .error e => .error e
      | .ok cache' => preloadGo env resourceLoc cache' rest

/-- `preload()`: resolve the resource root via `_path('')` and cache every
globbed resource of the fixed subdirectory/extension pairs. -/
def preload (env : Env) (cache : Cache) : Except Err Cache :=
  match _path "" with
  | .error e => .error e
  | .ok resourceLoc => preloadGo env resourceLoc cache preloadPairs

/-- Cache-state invariant: every binding agrees with a direct
resolve-and-read of its name.  It holds for the empty initial cache and is
preserved by `preload`, so it holds in every reachable state of the
module. -/
def CacheAgrees (env : Env) (cache : Cache) : Prop :=
  ∀ p ∈ cache, readDirect env p.1 = .ok p.2

/-- A concrete fixture tree: `html/` with one page, used by witnesses. -/
def fixtureRoot : Node :=
  .dir [("html", .dir [("log.html", .file "<html>log</html>" [60, 104])])]

/-- The fixture tree exposed as a loose filesystem checkout. -/
def fixtureFs : Env := ⟨.fsPath, fixtureRoot⟩

/-- The fixture tree exposed through the archive abstraction. -/
def fixtureZip : Env := ⟨.traversable, fixtureRoot⟩

/-- A successful cache lookup comes from a binding in the list. -/
theorem cacheLookup_mem (c : Cache) (n v : String) (h : cacheLookup c n = some v) :
    (n, v) ∈ c := by
  induction c with
  | nil => simp [cacheLookup] at h
  | cons p rest ih =>
    obtain ⟨k, w⟩ := p
    by_cases hk : k = n
    · subst hk
      simp [cacheLookup] at h
      subst h
      exact List.mem_cons_self _ _
    · simp [cacheLookup, hk] at h
      exact List.mem_cons_of_mem _ (ih h)

/-- Under the cache invariant, `read_file` is observationally a direct
resolve-and-read. -/
theorem read_file_agrees (env : Env) (cache : Cache) (h : CacheAgrees env cache)
    (filename : String) : read_file env cache filename = readDirect env filename := by
  simp only [read_file]
  cases hlk : cacheLookup cache filename with
  | none => rfl
  | some v => exact (h (filename, v) (cacheLookup_mem _ _ _ hlk)).symm

/-- The inner preload loop preserves the cache invariant. -/
theorem cacheNames_agrees (env : Env) (names : List String) :
    ∀ cache cache', CacheAgrees env cache → cacheNames env cache names = .ok cache' →
      CacheAgrees env cache' := by
  induction names with
  | nil =>
    intro cache cache' h hc
    rw [cacheNames] at hc
    cases hc
    exact h
  | cons n rest ih =>
    intro cache cache' h hc
    rw [cacheNames] at hc
    cases hrf : read_file env cache n with
    | error e => rw [hrf] at hc; cases hc
    | ok v =>
      rw [hrf] at hc
      have hv : readDirect env n = .ok v := by
        rw [← read_file_agrees env cache h n]; exact hrf
      have h' : CacheAgrees env (cacheInsert cache n v) := by
        intro p hp
        rcases List.mem_cons.mp hp with hp | hp
        · subst hp; exact hv
        · exact h p hp
      exact ih _ _ h' hc

/-- The outer preload loop preserves the cache invariant. -/
theorem preloadGo_agrees (env : Env) (rl : Loc) (pairs : List (String × String)) :
    ∀ cache cache', CacheAgrees env cache → preloadGo env rl cache pairs = .ok cache' →
      CacheAgrees env cache' := by
  induction pairs with
  | nil =>
    intro c c' h hp
    rw [preloadGo] at hp
    cases hp
    exact h
  | cons sd rest ih =>
    intro c c' h hp
    obtain ⟨subdir, ext⟩ := sd
    rw [preloadGo] at hp
    split at hp
    · cases hp
    · rename_i names hg
      split at hp
      · cases hp
      · rename_i c'' hc
        exact ih _ _ (cacheNames_agrees env names c c'' h hc) hp

/-- Rendering one more segment appends a slash and the segment. -/
theorem joinSegs_append_last (l : Loc) (x : String) (h : l ≠ []) :
    joinSegs (l ++ [x]) = joinSegs l ++ "/" ++ x := by
  induction l with
  | nil => exact absurd rfl h
  | cons a t ih =>
    cases t with
    | nil => rfl
    | cons b t' =>
      have ih' := ih (by simp)
      show a ++ "/" ++ joinSegs ((b :: t') ++ [x])
          = (a ++ "/" ++ joinSegs (b :: t')) ++ "/" ++ x
      rw [ih']
      simp [String.append_assoc]

/-- With neither separator present, `posixpath.join` inserts a slash. -/
theorem posixJoin_eq (a b : String) (hb : pyStartsWith b "/" = false)
    (ha : a ≠ "") (hs : pyEndsWith a "/" = false) :
    posixJoin a b = a ++ "/" ++ b := by
  simp [posixJoin, hb, ha, hs]

/-- A wildcard-free `fnmatch` pattern matches exactly itself. -/
theorem fnmatchList_literal (p : List Char) (hstar : '*' ∉ p) (hq : '?' ∉ p) :
    ∀ s, fnmatchList p s = true ↔ s = p := by
  induction p with
  | nil =>
    intro s
    simp only [fnmatchList]
    simp [List.isEmpty_iff]
  | cons a ps ih =>
    intro s
    have ha : ¬a = '*' := fun hcon => hstar (hcon ▸ List.mem_cons_self _ _)
    have hb : ¬a = '?' := fun hcon => hq (hcon ▸ List.mem_cons_self _ _)
    have ih' := ih (fun hcon => hstar (List.mem_cons_of_mem _ hcon))
      (fun hcon => hq (List.mem_cons_of_mem _ hcon))
    simp only [fnmatchList]
    rw [if_neg ha, if_neg hb]
    cases s with
    | nil => simp
    | cons c cs =>
      simp only [Bool.and_eq_true, beq_iff_eq, ih' cs, List.cons.injEq]
      constructor
      · rintro ⟨rfl, rfl⟩; exact ⟨rfl, rfl⟩
      · rintro ⟨rfl, rfl⟩; exact ⟨rfl, rfl⟩

/-- A leading `*` matches any split of the name. -/
theorem fnmatchList_star (p s : List Char) :
    fnmatchList ('*' :: p) s = true ↔
      ∃ k, k ≤ s.length ∧ fnmatchList p (s.drop k) = true := by
  simp only [fnmatchList]
  rw [if_pos trivial]
  simp only [List.any_eq_true, List.mem_range, Nat.lt_succ_iff]

/-- `fnmatch` against `*` followed by a wildcard-free tail is exactly a
suffix test on the last `p.length` characters. -/
theorem fnmatchList_star_endsWith (p s : List Char) (hstar : '*' ∉ p) (hq : '?' ∉ p) :
    fnmatchList ('*' :: p) s = (s.drop (s.length - p.length) == p) := by
  rw [Bool.eq_iff_iff, fnmatchList_star, beq_iff_eq]
  constructor
  · rintro ⟨k, _, hm⟩
    have hdp : s.drop k = p := (fnmatchList_literal p hstar hq _).mp hm
    have hsuf : p <:+ s := hdp ▸ List.drop_suffix k s
    exact (List.suffix_iff_eq_drop.mp hsuf).symm
  · intro hd
    exact ⟨s.length - p.length, Nat.sub_le _ _, (fnmatchList_literal p hstar hq _).mpr hd⟩

/-- C4: `_path` faults exactly on the bad inputs: it succeeds on every
relative name without a `..` segment, and raises the assertion fault on
every absolute path and on every path with a `..` segment. -/
theorem path_precondition_fault_iff (filename : String) :
    (posixIsAbs filename = false → (pySplitSlash filename).contains ".." = false →
      _path filename = .ok (segsOf filename)) ∧
    (posixIsAbs filename = true ∨ (pySplitSlash filename).contains ".." = true →
      _path filename = .error (.assertionError filename)) := by
  constructor
  · intro h1 h2
    have h2' : ".." ∉ pySplitSlash filename := by simpa using h2
    simp [_path, h1, h2']
  · intro h
    rcases h with h | h
    · simp [_path, h]
    · have h' : ".." ∈ pySplitSlash filename := by simpa using h
      cases hab : posixIsAbs filename <;> simp [_path, hab, h']

/-- C4 witness: `_path` accepts `"html/log.html"` and faults on the
absolute path `"/etc"` and on `"a/../b"`. -/
theorem path_precondition_fault_iff_witness :
    _path "html/log.html" = .ok ["html", "log.html"] ∧
    _path "/etc" = .error (.assertionError "/etc") ∧
    _path "a/../b" = .error (.assertionError "a/../b") :=
  ⟨(path_precondition_fault_iff "html/log.html").1 (by decide) (by decide),
   (path_precondition_fault_iff "/etc").2 (Or.inl (by decide)),
   (path_precondition_fault_iff "a/../b").2 (Or.inr (by decide))⟩

/-- C5: `read_file_binary` leaves the cache untouched, its result is the
direct resolve-and-read and does not depend on the cache contents, and a
second successive call returns exactly the same thing. -/
theorem read_file_binary_frame (env : Env) (cache cache' : Cache) (filename : String) :
    (read_file_binary env cache filename).2 = cache ∧
    (read_file_binary env cache filename).1 = readDirectBinary env filename ∧
    (read_file_binary env cache filename).1 = (read_file_binary env cache' filename).1 ∧
    read_file_binary env (read_file_binary env cache filename).2 filename
      = read_file_binary env cache filename :=
  ⟨rfl, rfl, rfl, rfl⟩

/-- C9: an extension containing the glob wildcard `*` makes `_glob` abort
with the assertion fault before yielding anything. -/
theorem glob_wildcard_ext_fault (env : Env) (resourceLoc : Loc) (subdir ext : String)
    (h : ext.data.contains '*' = true) :
    _glob env resourceLoc subdir ext = .error (.assertionError ext) := by
  have h' : '*' ∈ ext.data := by simpa using h
  simp [_glob, h']

/-- C9 witness: `_glob` with extension `".h*ml"` faults. -/
theorem glob_wildcard_ext_fault_witness :
    ".h*ml".data.contains '*' = true ∧
    _glob fixtureZip [] "html" ".h*ml" = .error (.assertionError ".h*ml") :=
  ⟨by decide, glob_wildcard_ext_fault fixtureZip [] "html" ".h*ml" (by decide)⟩

/-- C10: an extension that does not start with `.` makes `_glob` abort with
the assertion fault (whether or not it also contains `*`). -/
theorem glob_undotted_ext_fault (env : Env) (resourceLoc : Loc) (subdir ext : String)
    (hdot : pyStartsWith ext "." = false) :
    _glob env resourceLoc subdir ext = .error (.assertionError ext) := by
  cases hstar : ext.data.contains '*' <;> simp [_glob, hstar, hdot]

/-- C10 witness: `_glob` with the undotted extension `"html"` faults rather
than filtering by the suffix `"html"`. -/
theorem glob_undotted_ext_fault_witness :
    pyStartsWith "html" "." = false ∧
    _glob fixtureFs [] "html" "html" = .error (.assertionError "html") :=
  ⟨by decide, glob_undotted_ext_fault fixtureFs [] "html" "html" (by decide)⟩

/-- C7 counterexample: on a missing subdirectory, the archive-backed branch
of `_glob` fails with the assertion fault from `assert glob_path.is_dir()`
(an `AssertionError`, not an error of the directory-not-found kind), while
the filesystem branch yields the empty list. -/
theorem glob_missing_subdir_concrete :
    _glob ⟨.traversable, .dir []⟩ [] "html" ".html" = .error (.assertionError "html") ∧
    _glob ⟨.fsPath, .dir []⟩ [] "html" ".html" = .ok [] :=
  ⟨rfl, rfl⟩

/-- C7 amended: when `subdir` does not exist under the resource root,
`_glob` under the archive abstraction fails with the assertion-style fault
(whose message is the joined subdirectory path), and on a real filesystem
path it yields the empty sequence with no error. -/
theorem glob_missing_subdir_behavior (root : Node) (subdir ext : String)
    (hstar : ext.data.contains '*' = false)
    (hdot : pyStartsWith ext "." = true)
    (hmiss : root.find (segsOf subdir) = none) :
    _glob ⟨.traversable, root⟩ [] subdir ext
      = .error (.assertionError (joinSegs (segsOf subdir))) ∧
    _glob ⟨.fsPath, root⟩ [] subdir ext = .ok [] := by
  have hstar' : '*' ∉ ext.data := by simpa using hstar
  constructor <;> simp [_glob, hstar', hdot, hmiss]

/-- C7 amended witness: the missing directory `"html"` under an empty root. -/
theorem glob_missing_subdir_behavior_witness :
    _glob ⟨.traversable, .dir []⟩ [] "javascript" ".js"
      = .error (.assertionError (joinSegs (segsOf "javascript"))) ∧
    _glob ⟨.fsPath, .dir []⟩ [] "javascript" ".js" = .ok [] :=
  glob_missing_subdir_behavior (.dir []) "javascript" ".js" (by decide) (by decide) rfl

/-- C6 counterexample: `preload` under the archive abstraction with a root
that lacks the `html` subdirectory propagates the assertion fault raised
while the `_glob` generator is drained; it does raise in this deployment
mode. -/
theorem preload_missing_subdir_archive_raises :
    preload ⟨.traversable, .dir []⟩ [] = .error (.assertionError "html") :=
  rfl

/-- A filesystem-backed `_glob` of a missing subdirectory is empty. -/
theorem glob_fs_missing (root : Node) (subdir ext : String)
    (hstar : ext.data.contains '*' = false)
    (hdot : pyStartsWith ext "." = true)
    (hmiss : root.find (segsOf subdir) = none) :
    _glob ⟨.fsPath, root⟩ [] subdir ext = .ok [] := by
  have hstar' : '*' ∉ ext.data := by simpa using hstar
  simp [_glob, hstar', hdot, hmiss]

/-- C6 amended: in the filesystem-backed deployment modes (loose checkout or
frozen executable), `preload` of a root that has none of the listed
subdirectories raises nothing and caches nothing; under the archive-backed
mode the missing-directory assertion fault propagates out of `preload`
instead (see the counterexample). -/
theorem preload_missing_subdirs_fs_ok (root : Node) (cache : Cache)
    (hmiss : ∀ sd ∈ preloadPairs, root.find (segsOf sd.1) = none) :
    preload ⟨.fsPath, root⟩ cache = .ok cache := by
  have h1 : root.find (segsOf "html") = none :=
    hmiss ("html", ".html") (by simp [preloadPairs])
  have h2 : root.find (segsOf "javascript") = none :=
    hmiss ("javascript", ".js") (by simp [preloadPairs])
  have h3 : root.find (segsOf "javascript/quirks") = none :=
    hmiss ("javascript/quirks", ".js") (by simp [preloadPairs])
  have g1 := glob_fs_missing root "html" ".html" (by decide) (by decide) h1
  have g2 := glob_fs_missing root "javascript" ".js" (by decide) (by decide) h2
  have g3 := glob_fs_missing root "javascript/quirks" ".js" (by decide) (by decide) h3
  show preloadGo ⟨.fsPath, root⟩ [] cache preloadPairs = .ok cache
  simp only [preloadPairs, preloadGo, g1, g2, g3, cacheNames]

/-- C6 amended witness: an empty filesystem-backed root. -/
theorem preload_missing_subdirs_fs_ok_witness :
    preload ⟨.fsPath, .dir []⟩ [] = .ok [] :=
  preload_missing_subdirs_fs_ok (.dir []) []
    (by intro sd hsd; fin_cases hsd <;> rfl)

/-- C1: for a name whose resolved location does not exist, `read_file` and
`read_file_binary` both fail with the normalized `FileNotFoundError`, and
neither ever surfaces the archive API's raw `KeyError`.  The cache is only
assumed to be in a reachable state (`CacheAgrees`), which forces the missing
name to be uncached. -/
theorem read_missing_is_fileNotFound (env : Env) (cache : Cache) (filename : String)
    (loc : Loc) (hres : _path filename = .ok loc)
    (hmiss : env.root.find loc = none)
    (hcache : CacheAgrees env cache) :
    (∃ s, read_file env cache filename = .error (.fileNotFoundError s)) ∧
    (∃ s, (read_file_binary env cache filename).1 = .error (.fileNotFoundError s)) ∧
    (∀ s, read_file env cache filename ≠ .error (.keyError s)) ∧
    (∀ s, (read_file_binary env cache filename).1 ≠ .error (.keyError s)) := by
  have hd : readDirect env filename = .error (.fileNotFoundError (joinSegs loc)) := by
    cases hk : env.kind <;>
      simp [readDirect, hres, readRawText, hmiss, hk, _keyerror_workaround]
  have hl : cacheLookup cache filename = none := by
    cases hlk : cacheLookup cache filename with
    | none => rfl
    | some v =>
      have hv : readDirect env filename = .ok v :=
        hcache (filename, v) (cacheLookup_mem _ _ _ hlk)
      rw [hd] at hv
      simp at hv
  have hrf : read_file env cache filename = .error (.fileNotFoundError (joinSegs loc)) := by
    simp [read_file, hl, hd]
  have hdb : readDirectBinary env filename
      = .error (.fileNotFoundError (joinSegs loc)) := by
    cases hk : env.kind <;>
      simp [readDirectBinary, hres, readRawBytes, hmiss, hk, _keyerror_workaround]
  refine ⟨⟨_, hrf⟩, ⟨_, hdb⟩, ?_, ?_⟩
  · intro s hcon
    rw [hrf] at hcon
    simp at hcon
  · intro s hcon
    rw [show (read_file_binary env cache filename).1 = readDirectBinary env filename
      from rfl, hdb] at hcon
    simp at hcon

/-- C1 witness: the missing name `"nope.html"` under an empty archive-backed
root, starting from the empty cache. -/
theorem read_missing_is_fileNotFound_witness :
    _path "nope.html" = .ok ["nope.html"] ∧
    (∃ s, read_file ⟨.traversable, .dir []⟩ [] "nope.html"
      = .error (.fileNotFoundError s)) ∧
    (∃ s, (read_file_binary ⟨.traversable, .dir []⟩ [] "nope.html").1
      = .error (.fileNotFoundError s)) := by
  refine ⟨rfl, ?_, ?_⟩
  · exact (read_missing_is_fileNotFound ⟨.traversable, .dir []⟩ [] "nope.html"
      ["nope.html"] rfl rfl (by intro p hp; cases hp)).1
  · exact (read_missing_is_fileNotFound ⟨.traversable, .dir []⟩ [] "nope.html"
      ["nope.html"] rfl rfl (by intro p hp; cases hp)).2.1

/-- C2: if `preload` succeeds from the empty cache, then `read_file` on the
resulting cache returns exactly what `read_file` on the empty cache (a
direct resolve-and-read) returns, for every name — serving from the cache is
observationally transparent. -/
theorem preload_cache_transparent (env : Env) (cache' : Cache)
    (h : preload env [] = .ok cache') (filename : String) :
    read_file env cache' filename = read_file env [] filename := by
  have h0 : CacheAgrees env ([] : Cache) := by intro p hp; cases hp
  have hpre : preloadGo env [] [] preloadPairs = .ok cache' := h
  have hag : CacheAgrees env cache' := preloadGo_agrees env [] preloadPairs [] cache' h0 hpre
  rw [read_file_agrees env cache' hag filename, read_file_agrees env [] h0 filename]

/-- C2 witness: on the fixture checkout, `preload` caches `html/log.html`
and the cached read equals the direct read. -/
theorem preload_cache_transparent_witness :
    preload fixtureFs [] = .ok [("html/log.html", "<html>log</html>")] ∧
    read_file fixtureFs [("html/log.html", "<html>log</html>")] "html/log.html"
      = read_file fixtureFs [] "html/log.html" :=
  ⟨rfl, preload_cache_transparent fixtureFs [("html/log.html", "<html>log</html>")]
    rfl "html/log.html"⟩

/-- C3: over a directory `html` containing exactly `a.html`, `b.html` and
`c.txt` (whatever those entries contain, file or directory), `_glob` with
subdirectory `"html"` and extension `".html"` yields exactly the names
`html/a.html` and `html/b.html`, in both deployment modes, as POSIX-style
paths rooted at the resource root and without recursing into entries. -/
theorem glob_html_fixture_set (kind : LocKind) (na nb nc : Node) :
    ∃ names,
      _glob ⟨kind, .dir [("html", .dir [("a.html", na), ("b.html", nb), ("c.txt", nc)])]⟩
        [] "html" ".html" = .ok names ∧
      ∀ s, s ∈ names ↔ (s = "html/a.html" ∨ s = "html/b.html") := by
  cases kind
  · exact ⟨["html/a.html", "html/b.html"], rfl, fun s => by simp⟩
  · exact ⟨["html/a.html", "html/b.html"], rfl, fun s => by simp⟩

/-- C8: on an existing subdirectory, the filesystem globbing strategy and
the archive iterate-and-filter strategy of `_glob` return identical lists of
relative-path strings, for any dotted extension free of the `fnmatch`
metacharacters `*`, `?`, `[` and for a normalized relative `subdir` whose
entries' names do not start with a slash. -/
theorem glob_strategies_agree (root : Node) (subdir ext : String)
    (cs : List (String × Node))
    (hstar : ext.data.contains '*' = false)
    (hq : ext.data.contains '?' = false)
    (_hbr : ext.data.contains '[' = false)
    (hdot : pyStartsWith ext "." = true)
    (hdir : root.find (segsOf subdir) = some (.dir cs))
    (hnorm : joinSegs (segsOf subdir) = subdir)
    (hne : subdir ≠ "")
    (hslash : pyEndsWith subdir "/" = false)
    (hnames : ∀ c ∈ cs, pyStartsWith c.1 "/" = false) :
    _glob ⟨.fsPath, root⟩ [] subdir ext = _glob ⟨.traversable, root⟩ [] subdir ext := by
  have hstar' : '*' ∉ ext.data := by simpa using hstar
  have hq' : '?' ∉ ext.data := by simpa using hq
  have hlne : segsOf subdir ≠ [] := by
    intro h0
    rw [h0] at hnorm
    exact hne hnorm.symm
  simp only [_glob, hstar, hdot, List.nil_append, hdir, Bool.not_true, if_false]
  refine congrArg Except.ok ?_
  have hfil : (cs.filter fun c => fnmatchStr ("*" ++ ext) c.1)
      = cs.filter fun c => pyEndsWith c.1 ext :=
    List.filter_congr (fun c _ => by
      show fnmatchStr ("*" ++ ext) c.1 = pyEndsWith c.1 ext
      unfold fnmatchStr pyEndsWith
      rw [String.data_append]
      show fnmatchList ('*' :: ext.data) c.1.data = _
      exact fnmatchList_star_endsWith ext.data c.1.data hstar' hq')
  rw [hfil]
  refine List.map_congr_left ?_
  intro c hc
  have hb := hnames c (List.mem_of_mem_filter hc)
  rw [joinSegs_append_last _ _ hlne, hnorm, posixJoin_eq subdir c.1 hb hne hslash]

/-- C8 witness: both strategies on the fixture tree's `html` directory. -/
theorem glob_strategies_agree_witness :
    fixtureRoot.find (segsOf "html")
      = some (.dir [("log.html", .file "<html>log</html>" [60, 104])]) ∧
    _glob fixtureFs [] "html" ".html" = _glob fixtureZip [] "html" ".html" := by
  refine ⟨rfl, ?_⟩
  exact glob_strategies_agree fixtureRoot "html" ".html"
    [("log.html", .file "<html>log</html>" [60, 104])]
    (by decide) (by decide) (by decide) (by decide) rfl rfl (by decide) (by decide)
    (by intro c hc; fin_cases hc; rfl)

end Resources

